import Mathlib

/-!
# Verification of the `spreadsheet` engine

A shallow embedding of the spreadsheet engine from `src/lib.rs`,
`src/expression.rs` and (at its boundary) `src/parser.rs`.

Modelling conventions:

* Rust `f64` is modelled as `ℚ`.  Every `f64` is a dyadic rational, so all
  values the engine can actually produce are decimal-representable
  rationals; the concrete computations below only involve such values,
  where the `ℚ` model and `f64` agree exactly.
* `usize` is modelled as `Nat`.  The engine subtracts `1` from row numbers
  in a few places; in Rust an underflow at `0` aborts (panic in debug
  builds, wrap followed by an out-of-range `.expect` in release builds).
  The model routes every such access through `get_cell`, which treats row
  or column `0` as the fatal out-of-range path, matching both builds'
  observable behaviour (a fatal abort).
* Rust panics are modelled as `Except.error (Err.panic msg)`.  The
  cross-cell recursion of `Expression::evaluate` is not structural, so the
  model adds a fuel parameter; exhausting it yields the distinct
  `Err.outOfFuel`, which corresponds to recursion that the Rust code would
  keep expanding (never to a value or a panic it would have produced
  within that depth).
* The shared `RefCell` evaluation cursor (`evaluating_row`,
  `evaluating_column` in `Spreadsheet`) is threaded explicitly as an
  `EvalState` value through every call, including the mutation performed
  by the `CopyAbove` arm.
-/

/-! ## Decimal strings (models of `f64` formatting and parsing) -/

/-- Decimal digit characters of `n`, most significant first, prepended to
`acc`.  Structural on a fuel argument so that closed terms reduce. -/
def natDigitsGo : Nat → Nat → List Char → List Char
  | 0, _, acc => acc
  | fuel + 1, n, acc =>
    if n < 10 then Nat.digitChar n :: acc
    else natDigitsGo fuel (n / 10) (Nat.digitChar (n % 10) :: acc)

/-- Decimal digit string of a natural number (models `usize` / integral
`f64` formatting with `"{}"`). -/
def natDigitsStr (n : Nat) : String :=
  String.mk (natDigitsGo (n + 1) n [])

/-- Decimal string of an integer. -/
def intToStr (i : Int) : String :=
  if i < 0 then "-" ++ natDigitsStr i.natAbs else natDigitsStr i.natAbs

/-- Left-pad a string with zeros to length `k`. -/
def padZeros (s : String) (k : Nat) : String :=
  String.mk (List.replicate (k - s.length) '0') ++ s

/-- Value of a list of decimal digit characters. -/
def natFromDigits (cs : List Char) : Nat :=
  cs.foldl (fun acc c => acc * 10 + (c.toNat - '0'.toNat)) 0

/-- Core of decimal parsing: `digits [ '.' digits ]`, at least one digit,
whole input consumed. -/
def parseDecCore (cs : List Char) : Option ℚ :=
  let p := cs.span Char.isDigit
  match p.2 with
  | [] => if p.1 = [] then none else some (natFromDigits p.1 : ℚ)
  | '.' :: rest2 =>
    let pf := rest2.span Char.isDigit
    if pf.2 = [] ∧ (p.1 ≠ [] ∨ pf.1 ≠ []) then
      some ((natFromDigits p.1 : ℚ) + (natFromDigits pf.1 : ℚ) / 10 ^ pf.1.length)
    else none
  | _ => none

/-- Model of Rust `str::parse::<f64>()` on plain decimal literals
(`[+-] digits [ '.' digits ]`).  Exponent notation and the special forms
`inf` / `NaN` are not modelled; no value flowing through the developments
below uses them.  Parsing is exact in `ℚ` (no binary rounding). -/
def parseF64 (s : String) : Option ℚ :=
  match s.toList with
  | '-' :: cs => (parseDecCore cs).map (fun q => -q)
  | '+' :: cs => parseDecCore cs
  | cs => parseDecCore cs

/-- Least `k` with `10 ^ k % den = 0`, searched with a fuel bound. -/
def decExpGo : Nat → Nat → Nat → Option Nat
  | 0, _, _ => none
  | fuel + 1, den, k =>
    if 10 ^ k % den = 0 then some k else decExpGo fuel den (k + 1)

/-- Least `k` such that `den` divides `10 ^ k`, if any (for `den ≥ 1` a
divisor of some power of ten satisfies `k ≤ den`, so fuel `den + 1`
suffices). -/
def decExp (den : Nat) : Option Nat :=
  decExpGo (den + 1) den 0

/-- Model of Rust `f64::to_string()` (shortest round-trip decimal).
Integers print as plain digits; other decimal-representable rationals
print their exact (minimal-length, hence trailing-zero-free) decimal
expansion.  Rationals whose reduced denominator has a prime factor other
than 2 and 5 are outside the image of `f64` and get a placeholder
rendering. -/
def numToString (q : ℚ) : String :=
  if q.den = 1 then intToStr q.num
  else
    match decExp q.den with
    | some k =>
      let m := q.num.natAbs * 10 ^ k / q.den
      (if q.num < 0 then "-" else "") ++
        natDigitsStr (m / 10 ^ k) ++ "." ++ padZeros (natDigitsStr (m % 10 ^ k)) k
    | none => intToStr q.num ++ "/" ++ natDigitsStr q.den

/-- Model of Rust `format!("{:.2}", x)`: two fraction digits.  Rust rounds
the exact binary value to nearest (ties to even); the `ℚ` model uses
`round` (ties away from zero on the scaled magnitude), which agrees on
every non-tie. -/
def fixedTwo (q : ℚ) : String :=
  let m : Int := round (q * 100)
  (if m < 0 then "-" else "") ++ natDigitsStr (m.natAbs / 100) ++ "." ++
    String.mk [Nat.digitChar (m.natAbs / 10 % 10), Nat.digitChar (m.natAbs % 10)]

/-- The numeric branch of `impl Display for Expression`
(`expression.rs:189-193`): integral values render with `"{}"`, others
with `"{:.2}"`. -/
def renderNumber (q : ℚ) : String :=
  if q.den = 1 then intToStr q.num else fixedTwo q

/-! ## The AST (`expression.rs:6-44`) -/

/-- Outcome of a fallible step: a Rust panic with its message, or fuel
exhaustion (an artifact of bounding the non-structural recursion). -/
inductive Err where
  | panic (msg : String)
  | outOfFuel
deriving Repr, DecidableEq

structure CellReference where
  name : String
  column_name : String
  column : Nat
  row : Nat
deriving Repr, DecidableEq

structure LabelReference where
  label : String
  n_rows : Nat
deriving Repr, DecidableEq

structure ColumnReference where
  name : String
  column : Nat
deriving Repr, DecidableEq

/- Aliases so that constructor names inside `Expression` can shadow the
names they reuse (`String`, `List`, the reference structures) without
making the field types self-referential. -/
abbrev Text := String
abbrev ListT (α : Type) := List α
abbrev CRef := CellReference
abbrev LRef := LabelReference
abbrev ColRef := ColumnReference

inductive Expression where
  | Empty : Expression
  | Number (n : ℚ)
  | Label (name : Text)
  | String (s : Text)
  | List (expressions : List Expression)
  | Spread (l : List Expression)
  | CellReference (c : CRef)
  | LabelReference (l : LRef)
  | ColumnReference (c : ColRef)
  | CopyAbove
  | CopyEvaluated (c : ColRef)
  | Function (name : Text) (params : List Expression)
  | Plus (args : List Expression)
  | Minus (args : List Expression)
  | Multiply (args : List Expression)
  | Divide (args : List Expression)
deriving Repr

/-- `impl Display for Expression` (`expression.rs:178-195`): numbers and
numeric strings render through `renderNumber`, other strings verbatim,
anything else as the fixed marker text. -/
def display (e : Expression) : String :=
  match e with
  | .Number n => renderNumber n
  | .String s =>
    match parseF64 s with
    | some n => renderNumber n
    | none => s
  | _ => "unexpected error"

/-- `Expression::to_number` (`expression.rs:168-175`): numbers pass
through, strings parse with default `0`, `Spread` coerces to `0`, every
other variant is the fatal "expected number" panic. -/
def to_number (e : Expression) : Except Err ℚ :=
  match e with
  | .Number n => .ok n
  | .String s => .ok ((parseF64 s).getD 0)
  | .Spread _ => .ok 0
  | _ => .error (.panic "expected number")

/-! ## The spreadsheet and the evaluation cursor (`lib.rs:12-17`) -/

/-- The parsed sheet: the grid and the labels index.  `labels_map` models
the `HashMap<String, (usize, usize)>` of 0-based label positions as an
association list queried with `List.lookup`. -/
structure Spreadsheet where
  rows : List (List Expression)
  labels_map : List (String × Nat × Nat)
deriving Repr

/-- The shared evaluation cursor (`evaluating_row` / `evaluating_column`
`RefCell`s in `lib.rs:15-16`), threaded explicitly. -/
structure EvalState where
  row : Nat
  col : Nat
deriving Repr, DecidableEq

/-- `Spreadsheet::get_cell` (`lib.rs:59-64`): 1-based access; any address
outside the grid — including row or column `0`, where the Rust `usize`
subtraction underflows — is the fatal `.expect` path. -/
def get_cell (s : Spreadsheet) (row_number column_number : Nat) : Except Err Expression :=
  if row_number = 0 then .error (.panic "referencing unknown row")
  else
    match s.rows.get? (row_number - 1) with
    | none => .error (.panic "referencing unknown row")
    | some r =>
      if column_number = 0 then .error (.panic "referencing unknown column")
      else
        match r.get? (column_number - 1) with
        | none => .error (.panic "referencing unknown column")
        | some cell => .ok cell

/-! ## Helpers of the evaluator

Each fold below takes the one-step evaluator as an explicit function
argument `ev`, standing for the `cur.evaluate(spreadsheet)` calls of the
corresponding Rust iterator folds. -/

abbrev EvalFn := Expression → EvalState → Except Err (Expression × EvalState)

/-- The shared shape of the `Plus` / `Minus` / `Multiply` / `sum` folds
(`expression.rs:100-105,125`): evaluate each argument, coerce it with
`to_number`, and combine with `op`.  Note that the source's `Minus` arm
also combines with `+` (`expression.rs:103`); see `claim_C1`. -/
def numFold (ev : EvalFn) (op : ℚ → ℚ → ℚ) : ℚ → List Expression → EvalState → Except Err (ℚ × EvalState)
  | acc, [], st => .ok (acc, st)
  | acc, a :: rest, st =>
    match ev a st with
    | .error err => .error err
    | .ok (v, st') =>
      match to_number v with
      | .error err => .error err
      | .ok n => numFold ev op (op acc n) rest st'

/-- The `Divide` fold (`expression.rs:108-114`): evaluate and coerce each
divisor, abort fatally on a divisor of exactly `0`, else divide. -/
def divFold (ev : EvalFn) : ℚ → List Expression → EvalState → Except Err (ℚ × EvalState)
  | acc, [], st => .ok (acc, st)
  | acc, a :: rest, st =>
    match ev a st with
    | .error err => .error err
    | .ok (v, st') =>
      match to_number v with
      | .error err => .error err
      | .ok n =>
        if n = 0 then .error (.panic "division by zero")
        else divFold ev (acc / n) rest st'

/-- The `concat` fold (`expression.rs:151-154`): evaluate each argument
and append its `Display` rendering. -/
def strFold (ev : EvalFn) : String → List Expression → EvalState → Except Err (String × EvalState)
  | acc, [], st => .ok (acc, st)
  | acc, a :: rest, st =>
    match ev a st with
    | .error err => .error err
    | .ok (v, st') => strFold ev (acc ++ display v) rest st'

/-- The argument pre-pass of the `Function` arm (`expression.rs:117-122`):
`flat_map` that evaluates each parameter and splices the elements of a
`Spread` result in place. -/
def evalParams (ev : EvalFn) : List Expression → EvalState → Except Err (List Expression × EvalState)
  | [], st => .ok ([], st)
  | p :: rest, st =>
    match ev p st with
    | .error err => .error err
    | .ok (v, st1) =>
      match evalParams ev rest st1 with
      | .error err => .error err
      | .ok (t, st2) =>
        .ok ((match v with | .Spread es => es | v' => [v']) ++ t, st2)

/-- Cells the `ColumnReference` scan skips (`expression.rs:93`). -/
def isSkippable : Expression → Bool
  | .Empty => true
  | .Label _ => true
  | _ => false

/-- The `ColumnReference` scan (`expression.rs:90-98`), applied to the
reversed row list: rows lacking the column and `Empty` / `Label` cells
are skipped; the first other cell found is evaluated; an exhausted scan
yields the soft sentinel. -/
def scanColumn (ev : EvalFn) : List (List Expression) → Nat → EvalState → Except Err (Expression × EvalState)
  | [], _, st => .ok (.String "error", st)
  | r :: rest, col, st =>
    match r.get? (col - 1) with
    | some cell =>
      if isSkippable cell then scanColumn ev rest col st else ev cell st
    | none => scanColumn ev rest col st

/-! ## The missing grammar boundary -/

/-- Modelled from the spec: the pest grammar file `spreadsheet.pest`
referenced by `parser.rs:7` is not among the sources, so
`parse_cell_from_str` (`parser.rs:75-88`), used by `split` to re-type
fragments, cannot be traced through the grammar.  Per spec §4.1/§4.3
("each fragment re-parsed as a literal cell: number if it looks numeric,
else text"), a fragment parsing fully as an integer/decimal literal
yields `Number`; anything else yields no parse, which the `split` caller
turns into a verbatim `String`. -/
def parse_cell_from_str (input : String) : Option Expression :=
  (parseF64 input).map Expression.Number

/-- Rust `str::split` on a non-empty pattern: cut at each leftmost
occurrence.  Structural on a fuel argument. -/
def splitGoF (delim : List Char) : Nat → List Char → List Char → List (List Char)
  | _, [], acc => [acc.reverse]
  | 0, s, acc => [acc.reverse ++ s]
  | fuel + 1, c :: rest, acc =>
    if delim ≠ [] ∧ (c :: rest).take delim.length = delim then
      acc.reverse :: splitGoF delim fuel ((c :: rest).drop delim.length) []
    else splitGoF delim fuel rest (c :: acc)

/-- Model of Rust `str::split` with a string pattern (`expression.rs:146`):
an empty pattern yields boundary pieces around every character, a
non-empty pattern cuts at each leftmost occurrence. -/
def splitStr (s delim : String) : List String :=
  if delim = "" then
    "" :: s.toList.map (fun c => String.mk [c]) ++ [""]
  else (splitGoF delim.toList (s.toList.length + 1) s.toList []).map String.mk

/-! ## The single-step evaluator (`Expression::evaluate`,
`expression.rs:59-166`) -/

/-- `Expression::evaluate`.  `fuel` bounds the depth of the non-structural
cross-cell recursion (the calls the Rust code makes on fetched cells and
on already-evaluated parameters); every recursive call uses one unit. -/
def evaluate (s : Spreadsheet) : Nat → Expression → EvalState → Except Err (Expression × EvalState)
  | 0, _, _ => .error .outOfFuel
  | fuel + 1, e, st =>
    match e with
    | .Empty => .ok (.String "", st)
    | .Number n => .ok (.String (numToString n), st)
    | .String str => .ok (.String str, st)
    | .Label name => .ok (.String name, st)
    | .CellReference c =>
      match get_cell s c.row c.column with
      | .ok cell => .ok (cell, st)
      | .error err => .error err
    | .LabelReference l =>
      match s.labels_map.lookup l.label with
      | some (label_row_number, label_column_number) =>
        match get_cell s (label_row_number + l.n_rows + 1) (label_column_number + 1) with
        | .ok cell => evaluate s fuel cell st
        | .error err => .error err
      | none => .ok (.String "error", st)
    | .CopyAbove =>
      let st1 : EvalState := ⟨st.row - 1, st.col⟩
      match get_cell s st1.row st1.col with
      | .error err => .error err
      | .ok above_cell =>
        match above_cell with
        | .CopyAbove =>
          match evaluate s fuel .CopyAbove st1 with
          | .ok (.CellReference cr, st2) =>
            .ok (.CellReference
              ⟨cr.column_name ++ natDigitsStr cr.row, cr.column_name, cr.column, cr.row - 1⟩, st2)
          | .ok (_, _) => .error (.panic "internal error: entered unreachable code")
          | .error err => .error err
        | _ => .ok (above_cell, st1)
    | .CopyEvaluated column_ref =>
      match get_cell s (st.row - 1) column_ref.column with
      | .ok cell => evaluate s fuel cell st
      | .error err => .error err
    | .ColumnReference column_ref =>
      scanColumn (evaluate s fuel) s.rows.reverse column_ref.column st
    | .Plus args =>
      match numFold (evaluate s fuel) (fun acc cur => acc + cur) 0 args st with
      | .ok (q, st') => .ok (.Number q, st')
      | .error err => .error err
    | .Minus args =>
      match args with
      | [] => .error (.panic "index out of bounds: the len is 0 but the index is 0")
      | first :: rest =>
        match evaluate s fuel first st with
        | .error err => .error err
        | .ok (v, st') =>
          match to_number v with
          | .error err => .error err
          | .ok n =>
            -- `expression.rs:103` folds the remaining arguments with `+`.
            match numFold (evaluate s fuel) (fun acc cur => acc + cur) n rest st' with
            | .ok (q, st'') => .ok (.Number q, st'')
            | .error err => .error err
    | .Multiply args =>
      match numFold (evaluate s fuel) (fun acc cur => acc * cur) 1 args st with
      | .ok (q, st') => .ok (.Number q, st')
      | .error err => .error err
    | .Divide args =>
      match args with
      | [] => .error (.panic "index out of bounds: the len is 0 but the index is 0")
      | first :: rest =>
        match evaluate s fuel first st with
        | .error err => .error err
        | .ok (v, st') =>
          match to_number v with
          | .error err => .error err
          | .ok n =>
            match divFold (evaluate s fuel) n rest st' with
            | .ok (q, st'') => .ok (.Number q, st'')
            | .error err => .error err
    | .Function name params =>
      match evalParams (evaluate s fuel) params st with
      | .error err => .error err
      | .ok (ps, st1) =>
        match name.toLower with
        | "sum" =>
          match numFold (evaluate s fuel) (fun acc cur => acc + cur) 0 ps st1 with
          | .ok (q, st') => .ok (.Number q, st')
          | .error err => .error err
        | "gte" | "bte" =>
          match ps with
          | [p0, p1] =>
            match evaluate s fuel p0 st1 with
            | .error err => .error err
            | .ok (v0, st2) =>
              match to_number v0 with
              | .error err => .error err
              | .ok n0 =>
                match evaluate s fuel p1 st2 with
                | .error err => .error err
                | .ok (v1, st3) =>
                  match to_number v1 with
                  | .error err => .error err
                  | .ok n1 => .ok (.String (if n0 ≥ n1 then "true" else "false"), st3)
          | _ => .error (.panic "binary operation needs 2 params")
        | "lte" =>
          match ps with
          | [p0, p1] =>
            match evaluate s fuel p0 st1 with
            | .error err => .error err
            | .ok (v0, st2) =>
              match to_number v0 with
              | .error err => .error err
              | .ok n0 =>
                match evaluate s fuel p1 st2 with
                | .error err => .error err
                | .ok (v1, st3) =>
                  match to_number v1 with
                  | .error err => .error err
                  | .ok n1 => .ok (.String (if n0 ≤ n1 then "true" else "false"), st3)
          | _ => .error (.panic "binary operation needs 2 params")
        | "text" =>
          match ps with
          | [] => .error (.panic "index out of bounds: the len is 0 but the index is 0")
          | p0 :: _ =>
            match evaluate s fuel p0 st1 with
            | .ok (v, st2) => .ok (.String (display v), st2)
            | .error err => .error err
        | "split" =>
          match ps with
          | [p0, p1] =>
            match evaluate s fuel p0 st1 with
            | .error err => .error err
            | .ok (v0, st2) =>
              match evaluate s fuel p1 st2 with
              | .error err => .error err
              | .ok (v1, st3) =>
                .ok (.List ((splitStr (display v0) (display v1)).map
                  (fun input => (parse_cell_from_str input).getD (.String input))), st3)
          | _ => .error (.panic "binary operation needs 2 params")
        | "concat" =>
          match strFold (evaluate s fuel) "" ps st1 with
          | .ok (str, st') => .ok (.String str, st')
          | .error err => .error err
        | "spread" =>
          match ps with
          | [] => .error (.panic "index out of bounds: the len is 0 but the index is 0")
          | p0 :: _ =>
            match evaluate s fuel p0 st1 with
            | .error err => .error err
            | .ok (v, st2) =>
              match v with
              | .List expressions => .ok (.Spread expressions, st2)
              | _ => .error (.panic "spread only works on lists")
        | "incfrom" =>
          match ps with
          | [] => .error (.panic "index out of bounds: the len is 0 but the index is 0")
          | p0 :: _ =>
            match evaluate s fuel p0 st1 with
            | .error err => .error err
            | .ok (v, st2) =>
              match to_number v with
              | .ok n => .ok (.Number n, st2)
              | .error err => .error err
        | function_name => .error (.panic ("unknown function '" ++ function_name ++ "'"))
    | .List _ => .ok (e, st)
    | .Spread _ => .ok (e, st)

/-! ## Fixed-point reduction (`expression.rs:46-57`) -/

/-- `RECURSION_LIMIT` (`expression.rs:4`). -/
def RECURSION_LIMIT : Nat := 256

/-- The early-return test of the reduction loop (`expression.rs:50`). -/
def isStringExpr : Expression → Bool
  | .String _ => true
  | _ => false

/-- The body of `evaluate_recursively`: `n` remaining loop iterations,
each checking for a `String` before taking one reduction step; an
exhausted loop is the fatal "recursion limit reached" panic
(`expression.rs:49-56`). -/
def evalRecAux (s : Spreadsheet) (fuel : Nat) : Nat → Expression → EvalState → Except Err (Expression × EvalState)
  | 0, _, _ => .error (.panic "recursion limit reached")
  | n + 1, e, st =>
    if isStringExpr e then .ok (e, st)
    else
      match evaluate s fuel e st with
      | .ok (e', st') => evalRecAux s fuel n e' st'
      | .error err => .error err

/-- `Expression::evaluate_recursively` (`expression.rs:47-57`). -/
def evaluate_recursively (s : Spreadsheet) (fuel : Nat) (e : Expression) (st : EvalState) : Except Err (Expression × EvalState) :=
  evalRecAux s fuel RECURSION_LIMIT e st

/-- `k`-fold iteration of the single-step evaluator, the reference point
for what "after `k` reductions" means in the claims about the loop. -/
def iterateEval (s : Spreadsheet) (fuel : Nat) : Nat → Expression → EvalState → Except Err (Expression × EvalState)
  | 0, e, st => .ok (e, st)
  | k + 1, e, st =>
    match evaluate s fuel e st with
    | .ok (e', st') => iterateEval s fuel k e' st'
    | .error err => .error err

/-! ## The sheet driver (`Spreadsheet::evaluate`, `lib.rs:25-53`),
without the column-width bookkeeping (presentation only) -/

/-- One row of the driver: the column counter is incremented before each
cell, the cell is reduced to a value and rendered with `Display`. -/
def evalRow (s : Spreadsheet) (fuel : Nat) : List Expression → EvalState → Except Err (List String × EvalState)
  | [], st => .ok ([], st)
  | cell :: rest, st =>
    let st1 : EvalState := ⟨st.row, st.col + 1⟩
    match evaluate_recursively s fuel cell st1 with
    | .error err => .error err
    | .ok (v, st2) =>
      match evalRow s fuel rest st2 with
      | .error err => .error err
      | .ok (vs, st3) => .ok (display v :: vs, st3)

/-- All rows of the driver: the row counter is incremented and the column
counter reset to `0` before each row. -/
def evalRows (s : Spreadsheet) (fuel : Nat) : List (List Expression) → EvalState → Except Err (List (List String) × EvalState)
  | [], st => .ok ([], st)
  | r :: rest, st =>
    let st1 : EvalState := ⟨st.row + 1, 0⟩
    match evalRow s fuel r st1 with
    | .error err => .error err
    | .ok (vs, st2) =>
      match evalRows s fuel rest st2 with
      | .error err => .error err
      | .ok (vss, st3) => .ok (vs :: vss, st3)

/-- `Spreadsheet::evaluate` (`lib.rs:25-53`): cursor starts at `(0, 0)`;
the result is the grid of rendered cell texts. -/
def sheetEvaluate (s : Spreadsheet) (fuel : Nat) : Except Err (List (List String)) :=
  match evalRows s fuel s.rows ⟨0, 0⟩ with
  | .ok (vss, _) => .ok vss
  | .error err => .error err

/-! ## Column letter conversions (`lib.rs:91-116`) -/

/-- The loop of `column_name_from_index` (`lib.rs:95-101`), structural on
a fuel argument: each pass prepends the letter for `(column - 1) % 26`
and divides the remainder down. -/
def colNameGo : Nat → Nat → List Char → List Char
  | 0, _, acc => acc
  | fuel + 1, column, acc =>
    if column = 0 then acc
    else
      let char_val := (column - 1) % 26
      colNameGo fuel ((column - char_val) / 26) (Char.ofNat ('A'.toNat + char_val) :: acc)

/-- `column_name_from_index` (`lib.rs:91-104`).  The loop runs strictly
fewer than `column` passes, so fuel `column + 1` never runs out. -/
def column_name_from_index (column : Nat) : String :=
  String.mk (colNameGo (column + 1) column [])

/-- The loop of `column_index_from_name` (`lib.rs:110-113`): iterate the
reversed characters with a growing multiplier. -/
def colIdxGo : List Char → Nat → Nat → Nat
  | [], _, index => index
  | c :: rest, mul, index => colIdxGo rest (mul * 26) (index + (c.toNat - 'A'.toNat + 1) * mul)

/-- `column_index_from_name` (`lib.rs:106-116`). -/
def column_index_from_name (column : String) : Nat :=
  colIdxGo column.toList.reverse 1 0

/-! ## Spec-side auxiliary definitions (used to state claims, not taken
from the source) -/

/-- Plain sequential evaluation of a parameter list, with no spread
flattening: the "first evaluates every argument" half of the function
argument pre-pass. -/
def seqEvals (ev : EvalFn) : List Expression → EvalState → Except Err (List Expression × EvalState)
  | [], st => .ok ([], st)
  | p :: rest, st =>
    match ev p st with
    | .error err => .error err
    | .ok (v, st1) =>
      match seqEvals ev rest st1 with
      | .error err => .error err
      | .ok (vs, st2) => .ok (v :: vs, st2)

/-- In-place flattening of one evaluated argument. -/
def spreadFlat : Expression → List Expression
  | .Spread es => es
  | v => [v]

/-- Sequential evaluation plus numeric coercion of a list of arguments:
the trace a fold over divisors follows while no divisor is zero. -/
def evalNums (ev : EvalFn) : List Expression → EvalState → Except Err (List ℚ × EvalState)
  | [], st => .ok ([], st)
  | a :: rest, st =>
    match ev a st with
    | .error err => .error err
    | .ok (v, st1) =>
      match to_number v with
      | .error err => .error err
      | .ok n =>
        match evalNums ev rest st1 with
        | .error err => .error err
        | .ok (ns, st2) => .ok (n :: ns, st2)

/-- Positions `get_cell` rejects: row or column `0` (the `usize`
underflow) or an address beyond the stored rows / the addressed row's
length. -/
def outOfGrid (s : Spreadsheet) (row col : Nat) : Prop :=
  row = 0 ∨ col = 0 ∨ s.rows.length < row ∨
    ∃ r, s.rows.get? (row - 1) = some r ∧ r.length < col

/-! ## Values of column letter strings -/

/-- Value of one column letter (`A ↦ 1 … Z ↦ 26`). -/
def letterVal (c : Char) : Nat := c.toNat - 'A'.toNat + 1

/-- Bijective base-26 value of a letter string, most significant first,
on top of the accumulator `a`. -/
def bigValFrom (a : Nat) : List Char → Nat
  | [] => a
  | c :: l => bigValFrom (a * 26 + letterVal c) l

/-- Bijective base-26 value, least significant first. -/
def littleVal : List Char → Nat
  | [] => 0
  | c :: l => letterVal c + 26 * littleVal l

theorem bigValFrom_eq (l : List Char) : ∀ a, bigValFrom a l = a * 26 ^ l.length + bigValFrom 0 l := by
  induction l with
  | nil => intro a; simp [bigValFrom]
  | cons c l ih =>
    intro a
    simp only [bigValFrom, List.length_cons, ih (a * 26 + letterVal c), ih (0 * 26 + letterVal c)]
    ring

theorem colIdxGo_eq (l : List Char) : ∀ mul index, colIdxGo l mul index = index + littleVal l * mul := by
  induction l with
  | nil => intro mul index; simp [colIdxGo, littleVal]
  | cons c l ih =>
    intro mul index
    simp only [colIdxGo, littleVal, ih (mul * 26)]
    show index + (c.toNat - 'A'.toNat + 1) * mul + littleVal l * (mul * 26) = _
    unfold letterVal
    ring

theorem littleVal_append (l : List Char) (c : Char) :
    littleVal (l ++ [c]) = littleVal l + letterVal c * 26 ^ l.length := by
  induction l with
  | nil => simp [littleVal]
  | cons d l ih =>
    simp only [List.cons_append, littleVal, List.length_cons]
    rw [show l.append [c] = l ++ [c] from rfl, ih]
    ring

theorem littleVal_reverse (l : List Char) : littleVal l.reverse = bigValFrom 0 l := by
  induction l with
  | nil => rfl
  | cons c l ih =>
    simp only [List.reverse_cons, littleVal_append, ih, List.length_reverse, bigValFrom]
    rw [bigValFrom_eq l (0 * 26 + letterVal c)]
    ring

theorem column_index_eq_bigVal (l : List Char) :
    column_index_from_name (String.mk l) = bigValFrom 0 l := by
  show colIdxGo l.reverse 1 0 = _
  rw [colIdxGo_eq, littleVal_reverse]
  ring

theorem char_ofNat_letter (r : Nat) (h : r < 26) : (Char.ofNat ('A'.toNat + r)).toNat = 'A'.toNat + r := by
  revert h
  revert r
  decide

theorem colNameGo_val : ∀ fuel column acc, column ≤ fuel →
    bigValFrom 0 (colNameGo fuel column acc) = column * 26 ^ acc.length + bigValFrom 0 acc := by
  intro fuel
  induction fuel with
  | zero =>
    intro column acc h
    have : column = 0 := Nat.le_zero.mp h
    simp [colNameGo, this]
  | succ fuel ih =>
    intro column acc h
    by_cases hc : column = 0
    · simp [colNameGo, hc]
    · have h1 : 1 ≤ column := Nat.one_le_iff_ne_zero.mpr hc
      simp only [colNameGo, if_neg hc]
      have hmod : 26 * ((column - 1) / 26) + (column - 1) % 26 = column - 1 :=
        Nat.div_add_mod (column - 1) 26
      set r := (column - 1) % 26 with hrdef
      set q := (column - 1) / 26 with hqdef
      have hr26 : r < 26 := Nat.mod_lt _ (by omega)
      have hcol : column = 26 * q + r + 1 := by omega
      have hsub : column - r = 26 * q + 1 := by omega
      have hnext : (column - r) / 26 = q := by
        rw [hsub, Nat.mul_add_div (by omega)]
        omega
      have hqfuel : q ≤ fuel := by omega
      rw [hnext, ih q (Char.ofNat ('A'.toNat + r) :: acc) hqfuel]
      have hlv : letterVal (Char.ofNat ('A'.toNat + r)) = r + 1 := by
        unfold letterVal
        rw [char_ofNat_letter r hr26]
        omega
      simp only [List.length_cons, bigValFrom, Nat.zero_mul, Nat.zero_add, hlv]
      rw [bigValFrom_eq acc (r + 1), hcol]
      ring

/-- The index–name round trip of `lib.rs:91-116`: rebuilding a name from
an index and reading it back is the identity. -/
theorem column_index_from_name_from_index (n : Nat) :
    column_index_from_name (column_name_from_index n) = n := by
  show column_index_from_name (String.mk (colNameGo (n + 1) n [])) = n
  rw [column_index_eq_bigVal, colNameGo_val (n + 1) n [] (by omega)]
  simp [bigValFrom]

/-! ## Concrete fixtures -/

/-- An empty sheet (no rows, no labels). -/
def sheet0 : Spreadsheet := ⟨[], []⟩

/-- An arbitrary cursor position. -/
def st0 : EvalState := ⟨0, 0⟩

/-- The claim C2 sheet: column A holds the literal `5` in row 1 and the
copy-above formula in rows 2 and 3. -/
def sheetC2 : Spreadsheet := ⟨[[.Number 5], [.CopyAbove], [.CopyAbove]], []⟩

/-- A sheet with the label `x` at 0-based `(0, 0)` and the value `7` in
the cell one row below it. -/
def sheetL : Spreadsheet := ⟨[[.Label "x"], [.Number 7]], [("x", (0, 0))]⟩

/-! ## C8: column letter / index conversions -/

/-- C8: the column letter/index conversions satisfy
`index_from_name (name_from_index (index_from_name s)) = index_from_name s`
for every column letter string (proved here for all strings), and map
`"A"` to 1, `"Z"` to 26 and `"AA"` to 27. -/
theorem claim_C8 :
    (∀ s : String,
      column_index_from_name (column_name_from_index (column_index_from_name s)) =
        column_index_from_name s)
  ∧ column_index_from_name "A" = 1
  ∧ column_index_from_name "Z" = 26
  ∧ column_index_from_name "AA" = 27 :=
  ⟨fun s => column_index_from_name_from_index (column_index_from_name s), rfl, rfl, rfl⟩

/-! ## C5: the ColumnReference scan -/

theorem scanColumn_eq_find (ev : EvalFn) (col : Nat) (st : EvalState) : ∀ rows,
    scanColumn ev rows col st =
      match (rows.filterMap (fun r => r.get? (col - 1))).find? (fun cell => !isSkippable cell) with
      | some cell => ev cell st
      | none => .ok (.String "error", st) := by
  intro rows
  induction rows with
  | nil => rfl
  | cons r rest ih =>
    cases hr : r.get? (col - 1) with
    | none => simp only [scanColumn, hr, List.filterMap_cons, ih]
    | some cell =>
      by_cases hsk : isSkippable cell
      · simp only [scanColumn, hr, hsk, if_true, List.filterMap_cons, ih,
          List.find?_cons, Bool.not_eq_true']
        simp [hsk]
      · simp only [scanColumn, hr, hsk, if_false, List.filterMap_cons, List.find?_cons,
          Bool.not_eq_true']
        simp [hsk]

/-- C5: evaluating a `ColumnReference` scans the rows from last to first,
skips rows too short to contain the column as well as `Empty` and `Label`
cells, evaluates the first other cell found, and yields the text
`"error"` when no such cell exists. -/
theorem claim_C5 (s : Spreadsheet) (fuel : Nat) (c : ColumnReference) (st : EvalState) :
    evaluate s (fuel + 1) (.ColumnReference c) st =
      match (s.rows.reverse.filterMap (fun r => r.get? (c.column - 1))).find?
          (fun cell => !isSkippable cell) with
      | some cell => evaluate s fuel cell st
      | none => .ok (.String "error", st) := by
  show scanColumn (evaluate s fuel) s.rows.reverse c.column st = _
  exact scanColumn_eq_find _ _ _ _

/-! ## C4: label resolution -/

/-- C4: a `LabelReference` whose label is recorded at 0-based `(r, c)`
evaluates the grid cell at 0-based `(r + n_rows, c)`; an unrecorded label
yields the soft sentinel `"error"` (an `ok` result, so evaluation
continues). -/
theorem claim_C4 (s : Spreadsheet) (fuel : Nat) (st : EvalState) :
    (∀ (l : LabelReference) (r c : Nat) (rowL : List Expression) (cell : Expression),
      s.labels_map.lookup l.label = some (r, c) →
      s.rows.get? (r + l.n_rows) = some rowL →
      rowL.get? c = some cell →
      evaluate s (fuel + 1) (.LabelReference l) st = evaluate s fuel cell st)
  ∧ (∀ l : LabelReference, s.labels_map.lookup l.label = none →
      evaluate s (fuel + 1) (.LabelReference l) st = .ok (.String "error", st)) := by
  constructor
  · intro l r c rowL cell hlk hrow hcell
    simp only [evaluate, hlk, get_cell]
    have h1 : r + l.n_rows + 1 - 1 = r + l.n_rows := by omega
    have h2 : c + 1 - 1 = c := by omega
    have hrow' : s.rows[r + l.n_rows]? = some rowL := by
      rw [← List.get?_eq_getElem?]; exact hrow
    have hcell' : rowL[c]? = some cell := by
      rw [← List.get?_eq_getElem?]; exact hcell
    simp [h1, h2, hrow', hcell']
  · intro l hlk
    simp [evaluate, hlk]

/-- Witness for C4 on `sheetL`: `@x<1>` resolves to the cell at 0-based
`(1, 0)` (the `7`), and an unknown label resolves to `"error"`. -/
theorem claim_C4_witness :
    (sheetL.labels_map.lookup "x" = some (0, 0) ∧
      evaluate sheetL 2 (.LabelReference ⟨"x", 1⟩) ⟨2, 1⟩ = evaluate sheetL 1 (.Number 7) ⟨2, 1⟩)
  ∧ (sheetL.labels_map.lookup "nope" = none ∧
      evaluate sheetL 2 (.LabelReference ⟨"nope", 0⟩) ⟨2, 1⟩ = .ok (.String "error", ⟨2, 1⟩)) :=
  ⟨⟨rfl, (claim_C4 sheetL 1 ⟨2, 1⟩).1 ⟨"x", 1⟩ 0 0 [.Number 7] (.Number 7) rfl rfl rfl⟩,
   ⟨rfl, (claim_C4 sheetL 1 ⟨2, 1⟩).2 ⟨"nope", 0⟩ rfl⟩⟩

/-! ## C10: out-of-grid references abort fatally -/

theorem get_cell_error_of_outOfGrid (s : Spreadsheet) (row col : Nat) (h : outOfGrid s row col) :
    ∃ msg, get_cell s row col = .error (.panic msg) := by
  by_cases hrow0 : row = 0
  · exact ⟨"referencing unknown row", by simp [get_cell, hrow0]⟩
  · rcases h with h0 | hcol0 | hlt | ⟨r, hr, hlen⟩
    · exact absurd h0 hrow0
    · cases hg : s.rows[row - 1]? with
      | none =>
        exact ⟨"referencing unknown row", by simp [get_cell, hrow0, hg]⟩
      | some r =>
        exact ⟨"referencing unknown column", by simp [get_cell, hrow0, hg, hcol0]⟩
    · have hg : s.rows[row - 1]? = none := by
        rw [← List.get?_eq_getElem?, List.get?_eq_none]
        omega
      exact ⟨"referencing unknown row", by simp [get_cell, hrow0, hg]⟩
    · have hr' : s.rows[row - 1]? = some r := by
        rw [← List.get?_eq_getElem?]; exact hr
      by_cases hcol0 : col = 0
      · exact ⟨"referencing unknown column", by simp [get_cell, hrow0, hr', hcol0]⟩
      · have hg : r[col - 1]? = none := by
          rw [← List.get?_eq_getElem?, List.get?_eq_none]
          omega
        exact ⟨"referencing unknown column", by simp [get_cell, hrow0, hr', hcol0, hg]⟩

/-- C10: a `CellReference` addressing a position outside the grid, and
`CopyAbove` / `CopyEvaluated` evaluated at cursor row 1 (both subtract
one from the current row, reaching the rejected row 0), abort with a
fatal panic — an `error` result, never the soft `ok "error"` sentinel —
and the fatal result propagates through the fixed-point reduction
loop. -/
theorem claim_C10 (s : Spreadsheet) (fuel : Nat) (st : EvalState) :
    (∀ c : CellReference, outOfGrid s c.row c.column →
      ∃ msg, evaluate s (fuel + 1) (.CellReference c) st = .error (.panic msg))
  ∧ (st.row = 1 → ∃ msg, evaluate s (fuel + 1) .CopyAbove st = .error (.panic msg))
  ∧ (∀ c : ColumnReference, st.row = 1 →
      ∃ msg, evaluate s (fuel + 1) (.CopyEvaluated c) st = .error (.panic msg))
  ∧ (st.row = 1 → ∃ msg, evaluate_recursively s (fuel + 1) .CopyAbove st = .error (.panic msg)) := by
  have hCopy : st.row = 1 → ∃ msg, evaluate s (fuel + 1) .CopyAbove st = .error (.panic msg) := by
    intro h1
    refine ⟨"referencing unknown row", ?_⟩
    have hz : st.row - 1 = 0 := by omega
    simp [evaluate, hz, get_cell]
  refine ⟨?_, hCopy, ?_, ?_⟩
  · intro c hout
    obtain ⟨msg, hmsg⟩ := get_cell_error_of_outOfGrid s c.row c.column hout
    exact ⟨msg, by simp [evaluate, hmsg]⟩
  · intro c h1
    refine ⟨"referencing unknown row", ?_⟩
    have hz : st.row - 1 = 0 := by omega
    simp [evaluate, hz, get_cell]
  · intro h1
    obtain ⟨msg, hmsg⟩ := hCopy h1
    refine ⟨msg, ?_⟩
    have hstep : evaluate_recursively s (fuel + 1) .CopyAbove st =
        match evaluate s (fuel + 1) .CopyAbove st with
        | .ok (e', st') => evalRecAux s (fuel + 1) 255 e' st'
        | .error err => .error err := rfl
    rw [hstep, hmsg]

/-- Witness for C10 on the empty sheet: `A1` is outside the empty grid,
and both relative forms abort at cursor row 1. -/
theorem claim_C10_witness :
    (outOfGrid sheet0 1 1 ∧
      ∃ msg, evaluate sheet0 2 (.CellReference ⟨"A1", "A", 1, 1⟩) st0 = .error (.panic msg))
  ∧ (∃ msg, evaluate sheet0 2 .CopyAbove ⟨1, 1⟩ = .error (.panic msg))
  ∧ (∃ msg, evaluate sheet0 2 (.CopyEvaluated ⟨"A", 1⟩) ⟨1, 1⟩ = .error (.panic msg))
  ∧ (∃ msg, evaluate_recursively sheet0 2 .CopyAbove ⟨1, 1⟩ = .error (.panic msg)) := by
  have hout : outOfGrid sheet0 1 1 := Or.inr (Or.inr (Or.inl (by simp [sheet0])))
  exact ⟨⟨hout, (claim_C10 sheet0 1 st0).1 ⟨"A1", "A", 1, 1⟩ hout⟩,
    (claim_C10 sheet0 1 ⟨1, 1⟩).2.1 rfl,
    (claim_C10 sheet0 1 ⟨1, 1⟩).2.2.1 ⟨"A", 1⟩ rfl,
    (claim_C10 sheet0 1 ⟨1, 1⟩).2.2.2 rfl⟩

/-! ## C1: the Minus arm adds -/

/-- C1 (code behaviour at the failing input): evaluating
`Minus { args: [Number 5, Number 2] }` — surface formula `=5-2` — yields
`Number 7`, because the fold at `expression.rs:103` combines the
remaining arguments with `+` instead of `-`; the claimed result is
`Number 3`. -/
theorem claim_C1 :
    evaluate sheet0 2 (.Minus [.Number 5, .Number 2]) st0 = .ok (.Number 7, st0) ∧
    (5 : ℚ) - 2 = 3 := by
  constructor
  · with_unfolding_all rfl
  · norm_num

/-! ## C2: the CopyAbove column -/

/-- C2: the sheet `A1 = 5`, `A2 = =^^`, `A3 = =^^` evaluates successfully
and renders all three cells as `"5"`. -/
theorem claim_C2 : sheetEvaluate sheetC2 8 = .ok [["5"], ["5"], ["5"]] := by
  with_unfolding_all rfl

/-! ## C6: division and the zero-divisor panic -/

theorem divFold_ok_shape (ev : EvalFn) : ∀ (rest : List Expression) (acc : ℚ) (st : EvalState) (q : ℚ) (st' : EvalState),
    divFold ev acc rest st = .ok (q, st') →
    ∃ ns : List ℚ, evalNums ev rest st = .ok (ns, st') ∧ (∀ n ∈ ns, n ≠ 0) ∧
      q = ns.foldl (fun a b => a / b) acc := by
  intro rest
  induction rest with
  | nil =>
    intro acc st q st' h
    simp only [divFold, Except.ok.injEq, Prod.mk.injEq] at h
    obtain ⟨h1, h2⟩ := h
    subst h1; subst h2
    exact ⟨[], rfl, by simp, by simp⟩
  | cons a rest ih =>
    intro acc st q st' h
    simp only [divFold] at h
    cases hev : ev a st with
    | error err => simp only [hev] at h; exact absurd h (by simp)
    | ok p =>
      obtain ⟨v, st1⟩ := p
      simp only [hev] at h
      cases htn : to_number v with
      | error err => simp only [htn] at h; exact absurd h (by simp)
      | ok n =>
        simp only [htn] at h
        by_cases hz : n = 0
        · simp only [if_pos hz] at h; exact absurd h (by simp)
        · simp only [if_neg hz] at h
          obtain ⟨ns, hns, hnz, hq⟩ := ih (acc / n) st1 q st' h
          refine ⟨n :: ns, ?_, ?_, ?_⟩
          · simp only [evalNums, hev, htn, hns]
          · intro m hm
            rcases List.mem_cons.mp hm with h | h
            · subst h; exact hz
            · exact hnz m h
          · simpa [List.foldl] using hq

theorem divFold_zero (ev : EvalFn) : ∀ (pre : List Expression) (acc : ℚ) (st st₁ : EvalState) (ns : List ℚ) (a va : Expression) (st₂ : EvalState) (post : List Expression),
    evalNums ev pre st = .ok (ns, st₁) → (∀ n ∈ ns, n ≠ 0) →
    ev a st₁ = .ok (va, st₂) → to_number va = .ok 0 →
    divFold ev acc (pre ++ a :: post) st = .error (.panic "division by zero") := by
  intro pre
  induction pre with
  | nil =>
    intro acc st st₁ ns a va st₂ post hnums hnz hev htn
    simp only [evalNums, Except.ok.injEq, Prod.mk.injEq] at hnums
    obtain ⟨-, h2⟩ := hnums
    subst h2
    simp [divFold, hev, htn]
  | cons p pre ih =>
    intro acc st st₁ ns a va st₂ post hnums hnz hev htn
    simp only [evalNums] at hnums
    cases hev0 : ev p st with
    | error err => simp only [hev0] at hnums; exact absurd hnums (by simp)
    | ok pr =>
      obtain ⟨v0, s1⟩ := pr
      simp only [hev0] at hnums
      cases htn0 : to_number v0 with
      | error err => simp only [htn0] at hnums; exact absurd hnums (by simp)
      | ok n0 =>
        simp only [htn0] at hnums
        cases hrest : evalNums ev pre s1 with
        | error err => simp only [hrest] at hnums; exact absurd hnums (by simp)
        | ok pr2 =>
          obtain ⟨ns', s2⟩ := pr2
          simp only [hrest] at hnums
          simp only [Except.ok.injEq, Prod.mk.injEq] at hnums
          obtain ⟨hns, hs2⟩ := hnums
          subst hs2
          have hn0 : n0 ≠ 0 := hnz n0 (by rw [← hns]; exact List.mem_cons_self n0 ns')
          have hnz' : ∀ n ∈ ns', n ≠ 0 := fun n hn => hnz n (by rw [← hns]; exact List.mem_cons_of_mem n0 hn)
          simp only [List.cons_append, divFold, hev0, htn0, if_neg hn0]
          exact ih (acc / n0) s1 s2 ns' a va st₂ post hrest hnz' hev htn

/-- C6: for a `Divide` node, if the sequential evaluation of the divisors
reaches one that coerces to exactly `0` — wherever it sits in the
argument list — evaluation fails with the fatal "division by zero" panic;
and any successful evaluation returns the first argument successively
divided by the (all non-zero) coercions of the remaining arguments. -/
theorem claim_C6 (s : Spreadsheet) (fuel : Nat) (first : Expression) (rest : List Expression) (st : EvalState) :
    (∀ (v0 : Expression) (st0 : EvalState) (q0 : ℚ) (pre : List Expression) (a : Expression)
        (post : List Expression) (ns : List ℚ) (st₁ : EvalState) (va : Expression) (st₂ : EvalState),
      rest = pre ++ a :: post →
      evaluate s fuel first st = .ok (v0, st0) → to_number v0 = .ok q0 →
      evalNums (evaluate s fuel) pre st0 = .ok (ns, st₁) → (∀ n ∈ ns, n ≠ 0) →
      evaluate s fuel a st₁ = .ok (va, st₂) → to_number va = .ok 0 →
      evaluate s (fuel + 1) (.Divide (first :: rest)) st = .error (.panic "division by zero"))
  ∧ (∀ (v : Expression) (st' : EvalState),
      evaluate s (fuel + 1) (.Divide (first :: rest)) st = .ok (v, st') →
      ∃ (v0 : Expression) (st0 : EvalState) (q0 : ℚ) (ns : List ℚ),
        evaluate s fuel first st = .ok (v0, st0) ∧ to_number v0 = .ok q0 ∧
        evalNums (evaluate s fuel) rest st0 = .ok (ns, st') ∧ (∀ n ∈ ns, n ≠ 0) ∧
        v = .Number (ns.foldl (fun a b => a / b) q0)) := by
  constructor
  · intro v0 st0 q0 pre a post ns st₁ va st₂ hsplit hev0 htn0 hnums hnz heva htna
    subst hsplit
    simp only [evaluate, hev0, htn0]
    rw [divFold_zero (evaluate s fuel) pre q0 st0 st₁ ns a va st₂ post hnums hnz heva htna]
  · intro v st' h
    simp only [evaluate] at h
    cases hev0 : evaluate s fuel first st with
    | error err => simp only [hev0] at h; exact absurd h (by simp)
    | ok p =>
      obtain ⟨v0, st0⟩ := p
      simp only [hev0] at h
      cases htn0 : to_number v0 with
      | error err => simp only [htn0] at h; exact absurd h (by simp)
      | ok q0 =>
        simp only [htn0] at h
        cases hdf : divFold (evaluate s fuel) q0 rest st0 with
        | error err => simp only [hdf] at h; exact absurd h (by simp)
        | ok pr =>
          obtain ⟨q, stq⟩ := pr
          simp only [hdf] at h
          simp only [Except.ok.injEq, Prod.mk.injEq] at h
          obtain ⟨hv, hst⟩ := h
          subst hv; subst hst
          obtain ⟨ns, hns, hnz, hq⟩ := divFold_ok_shape (evaluate s fuel) rest q0 st0 q stq hdf
          exact ⟨v0, st0, q0, ns, rfl, htn0, hns, hnz, by rw [hq]⟩

/-- Witness for C6: `=6/0` aborts with "division by zero", and `=6/3/2`
succeeds with the successive quotient. -/
theorem claim_C6_witness :
    evaluate sheet0 2 (.Divide [.Number 6, .Number 0]) st0 = .error (.panic "division by zero")
  ∧ ∃ (v0 : Expression) (st0' : EvalState) (q0 : ℚ) (ns : List ℚ),
      evaluate sheet0 1 (.Number 6) st0 = .ok (v0, st0') ∧ to_number v0 = .ok q0 ∧
      evalNums (evaluate sheet0 1) [.Number 3, .Number 2] st0' = .ok (ns, st0) ∧ (∀ n ∈ ns, n ≠ 0) ∧
      Expression.Number ((6 : ℚ) / 3 / 2) = .Number (ns.foldl (fun a b => a / b) q0) := by
  constructor
  · exact (claim_C6 sheet0 1 (.Number 6) [.Number 0] st0).1 (.String "6") st0 6 [] (.Number 0) []
      [] st0 (.String "0") st0 rfl (by with_unfolding_all rfl) (by with_unfolding_all rfl) rfl
      (by simp) (by with_unfolding_all rfl) (by with_unfolding_all rfl)
  · exact (claim_C6 sheet0 1 (.Number 6) [.Number 3, .Number 2] st0).2
      (.Number ((6 : ℚ) / 3 / 2)) st0 (by with_unfolding_all rfl)

/-! ## C7: function arguments and spread flattening -/

theorem match_eq_spreadFlat (v : Expression) :
    (match v with | .Spread es => es | v' => [v']) = spreadFlat v := by
  cases v <;> rfl

/-- The argument pre-pass equals plain sequential evaluation followed by
in-place flattening of every `Spread` result. -/
theorem evalParams_eq_seqEvals (ev : EvalFn) : ∀ (ps : List Expression) (st : EvalState),
    evalParams ev ps st =
      (seqEvals ev ps st).map (fun r => (r.1.flatMap spreadFlat, r.2)) := by
  intro ps
  induction ps with
  | nil => intro st; rfl
  | cons p rest ih =>
    intro st
    cases hev : ev p st with
    | error err => simp only [evalParams, seqEvals, hev, Except.map]
    | ok pr =>
      obtain ⟨v, st1⟩ := pr
      simp only [evalParams, seqEvals, hev]
      rw [ih st1]
      cases hrest : seqEvals ev rest st1 with
      | error err => rfl
      | ok pr2 =>
        obtain ⟨vs, st2⟩ := pr2
        cases v <;> rfl

/-- C7: function-call evaluation first evaluates every argument and
splices the elements of any `Spread` result in place into the argument
list, and in particular `sum(spread(split("1,2,3", ",")))` evaluates to
`6` (the terminal reduction of `Number 6` is the text `"6"`). -/
theorem claim_C7 :
    (∀ (ev : EvalFn) (ps : List Expression) (st : EvalState),
      evalParams ev ps st =
        (seqEvals ev ps st).map (fun r => (r.1.flatMap spreadFlat, r.2)))
  ∧ evaluate sheet0 8
      (.Function "sum" [.Function "spread" [.Function "split" [.String "1,2,3", .String ","]]])
      st0 = .ok (.Number 6, st0)
  ∧ evaluate_recursively sheet0 8
      (.Function "sum" [.Function "spread" [.Function "split" [.String "1,2,3", .String ","]]])
      st0 = .ok (.String "6", st0) := by
  refine ⟨evalParams_eq_seqEvals, ?_, ?_⟩
  · with_unfolding_all rfl
  · with_unfolding_all rfl

/-! ## C3: the 256-step fixed-point reduction -/

/-- Full characterization of the reduction loop body with `n` iterations
remaining: a successful run returns a `String` reached at the earliest
iteration count, strictly below `n`; if no iterate within the bound is a
`String`, the run ends in an error (the limit panic or an evaluation
error), never a partial result. -/
theorem evalRecAux_spec (s : Spreadsheet) (fuel : Nat) : ∀ (n : Nat) (e : Expression) (st : EvalState),
    (∀ v st', evalRecAux s fuel n e st = .ok (v, st') →
      isStringExpr v = true ∧
      ∃ k, k < n ∧ iterateEval s fuel k e st = .ok (v, st') ∧
        ∀ j w st'', j < k → iterateEval s fuel j e st = .ok (w, st'') → isStringExpr w = false)
  ∧ ((∀ k w st'', k ≤ n → iterateEval s fuel k e st = .ok (w, st'') → isStringExpr w = false) →
      ∃ err, evalRecAux s fuel n e st = .error err) := by
  intro n
  induction n with
  | zero =>
    intro e st
    constructor
    · intro v st' h
      exact absurd h (by simp [evalRecAux])
    · intro _
      exact ⟨.panic "recursion limit reached", rfl⟩
  | succ n ih =>
    intro e st
    by_cases hs : isStringExpr e
    · constructor
      · intro v st' h
        have hred : evalRecAux s fuel (n + 1) e st = .ok (e, st) := by
          simp [evalRecAux, hs]
        rw [hred] at h
        simp only [Except.ok.injEq, Prod.mk.injEq] at h
        obtain ⟨hv, hst⟩ := h
        subst hv; subst hst
        exact ⟨hs, 0, by omega, rfl, fun j w st'' hj _ => absurd hj (by omega)⟩
      · intro H
        have := H 0 e st (by omega) rfl
        rw [hs] at this
        exact absurd this (by simp)
    · cases hev : evaluate s fuel e st with
      | error err =>
        have hred : evalRecAux s fuel (n + 1) e st = .error err := by
          simp [evalRecAux, hs, hev]
        constructor
        · intro v st' h
          rw [hred] at h
          exact absurd h (by simp)
        · intro _
          exact ⟨err, hred⟩
      | ok p =>
        obtain ⟨e', st'⟩ := p
        have hred : evalRecAux s fuel (n + 1) e st = evalRecAux s fuel n e' st' := by
          simp [evalRecAux, hs, hev]
        have hiter : ∀ k, iterateEval s fuel (k + 1) e st = iterateEval s fuel k e' st' := by
          intro k
          simp [iterateEval, hev]
        obtain ⟨ihS, ihE⟩ := ih e' st'
        constructor
        · intro v stv h
          rw [hred] at h
          obtain ⟨hstr, k, hk, hit, hmin⟩ := ihS v stv h
          refine ⟨hstr, k + 1, by omega, by rw [hiter]; exact hit, ?_⟩
          intro j w stw hj hjit
          cases j with
          | zero =>
            simp only [iterateEval, Except.ok.injEq, Prod.mk.injEq] at hjit
            obtain ⟨hw, -⟩ := hjit
            subst hw
            exact Bool.not_eq_true _ ▸ hs
          | succ j' =>
            rw [hiter] at hjit
            exact hmin j' w stw (by omega) hjit
        · intro H
          obtain ⟨err, herr⟩ := ihE (fun k w stw hk hit =>
            H (k + 1) w stw (by omega) (by rw [hiter]; exact hit))
          exact ⟨err, by rw [hred]; exact herr⟩

/-- C3: `evaluate_to_value` (`evaluate_recursively`) applies at most
`RECURSION_LIMIT = 256` single-step reductions: a successful run returns
a `String`, namely the first iterate of the single-step evaluator that is
a `String`, reached within fewer than 256 reductions; and when no iterate
within the bound is a `String`, the run fails with an error (the
"recursion limit reached" panic, or the fatal error of a failing step)
rather than looping or returning a partial result. -/
theorem claim_C3 (s : Spreadsheet) (fuel : Nat) (e : Expression) (st : EvalState) :
    (∀ v st', evaluate_recursively s fuel e st = .ok (v, st') →
      isStringExpr v = true ∧
      ∃ k, k < RECURSION_LIMIT ∧ iterateEval s fuel k e st = .ok (v, st') ∧
        ∀ j w st'', j < k → iterateEval s fuel j e st = .ok (w, st'') → isStringExpr w = false)
  ∧ ((∀ k w st'', k ≤ RECURSION_LIMIT → iterateEval s fuel k e st = .ok (w, st'') → isStringExpr w = false) →
      ∃ err, evaluate_recursively s fuel e st = .error err) :=
  evalRecAux_spec s fuel RECURSION_LIMIT e st

/-- Every iterate of a bare `List` cell is the same `List` (it reduces to
itself), so it never becomes a `String`. -/
theorem iterateEval_list_const : ∀ (k : Nat) (st : EvalState),
    iterateEval sheet0 1 k (.List []) st = .ok (.List [], st) := by
  intro k
  induction k with
  | zero => intro st; rfl
  | succ k ih =>
    intro st
    have hev : evaluate sheet0 1 (.List []) st = .ok (.List [], st) := rfl
    simp only [iterateEval, hev, ih]

/-- Witness for C3: a literal `Number 5` reduces to the string `"5"`
within the bound, and a bare `List` cell — which only ever reduces to
itself — makes the loop fail. -/
theorem claim_C3_witness :
    (isStringExpr (.String "5") = true ∧
      ∃ k, k < RECURSION_LIMIT ∧ iterateEval sheet0 1 k (.Number 5) st0 = .ok (.String "5", st0) ∧
        ∀ j w st'', j < k → iterateEval sheet0 1 j (.Number 5) st0 = .ok (w, st'') → isStringExpr w = false)
  ∧ ∃ err, evaluate_recursively sheet0 1 (.List []) st0 = .error err := by
  constructor
  · exact (claim_C3 sheet0 1 (.Number 5) st0).1 (.String "5") st0 (by with_unfolding_all rfl)
  · refine (claim_C3 sheet0 1 (.List []) st0).2 ?_
    intro k w st'' hk hit
    rw [iterateEval_list_const k st0] at hit
    simp only [Except.ok.injEq, Prod.mk.injEq] at hit
    obtain ⟨hw, -⟩ := hit
    subst hw
    rfl

/-! ## C9: final rendering -/

theorem toList_append (a b : String) : (a ++ b).toList = a.toList ++ b.toList := by
  simp [String.toList, String.data_append]

theorem digitChar_isDigit : ∀ m : Nat, m < 10 → (Nat.digitChar m).isDigit = true := by
  decide

theorem isDigit_ne_dot (c : Char) (h : c.isDigit = true) : c ≠ '.' := by
  intro he
  subst he
  exact absurd h (by decide)

theorem natDigitsGo_all_digits : ∀ (fuel n : Nat) (acc : List Char),
    (∀ c ∈ acc, c.isDigit = true) → ∀ c ∈ natDigitsGo fuel n acc, c.isDigit = true := by
  intro fuel
  induction fuel with
  | zero => intro n acc hacc c hc; exact hacc c hc
  | succ fuel ih =>
    intro n acc hacc c hc
    simp only [natDigitsGo] at hc
    by_cases h10 : n < 10
    · rw [if_pos h10] at hc
      rcases List.mem_cons.mp hc with h | h
      · subst h; exact digitChar_isDigit n h10
      · exact hacc c h
    · rw [if_neg h10] at hc
      refine ih (n / 10) _ ?_ c hc
      intro d hd
      rcases List.mem_cons.mp hd with h | h
      · subst h; exact digitChar_isDigit _ (Nat.mod_lt _ (by omega))
      · exact hacc d h

theorem natDigitsStr_all_digits (n : Nat) : ∀ c ∈ (natDigitsStr n).toList, c.isDigit = true :=
  natDigitsGo_all_digits (n + 1) n [] (by simp)

theorem intToStr_no_dot (i : Int) : ∀ c ∈ (intToStr i).toList, c ≠ '.' := by
  intro c hc
  by_cases hi : i < 0
  · rw [intToStr, if_pos hi, toList_append] at hc
    rcases List.mem_append.mp hc with h | h
    · have : c = '-' := by simpa using h
      subst this
      decide
    · exact isDigit_ne_dot c (natDigitsStr_all_digits _ c h)
  · rw [intToStr, if_neg hi] at hc
    exact isDigit_ne_dot c (natDigitsStr_all_digits _ c hc)

/-- C9: rendering a terminal `Number` with zero fractional part (an
integral rational, `den = 1`) yields the plain integer digits — in
particular no `'.'` occurs, so no trailing `".0"`; a `Number` with a
non-zero fractional part renders with a decimal point followed by exactly
2 digit characters; a `String` parseable as a decimal renders exactly as
the parsed number does; a `String` not parseable as a number renders
verbatim. -/
theorem claim_C9 :
    (∀ q : ℚ, q.den = 1 →
      display (.Number q) = intToStr q.num ∧ ∀ c ∈ (display (.Number q)).toList, c ≠ '.')
  ∧ (∀ q : ℚ, q.den ≠ 1 →
      ∃ (s₁ : String) (c₁ c₂ : Char),
        display (.Number q) = s₁ ++ "." ++ String.mk [c₁, c₂] ∧
        c₁.isDigit = true ∧ c₂.isDigit = true ∧ ∀ c ∈ s₁.toList, c ≠ '.')
  ∧ (∀ (str : String) (q : ℚ), parseF64 str = some q →
      display (.String str) = display (.Number q))
  ∧ (∀ str : String, parseF64 str = none → display (.String str) = str) := by
  refine ⟨?_, ?_, ?_, ?_⟩
  · intro q h
    have hd : display (.Number q) = intToStr q.num := by
      simp only [display, renderNumber, if_pos h]
    exact ⟨hd, by rw [hd]; exact intToStr_no_dot q.num⟩
  · intro q h
    refine ⟨(if round (q * 100) < 0 then "-" else "") ++
        natDigitsStr ((round (q * 100)).natAbs / 100),
      Nat.digitChar ((round (q * 100)).natAbs / 10 % 10),
      Nat.digitChar ((round (q * 100)).natAbs % 10), ?_, ?_, ?_, ?_⟩
    · simp only [display, renderNumber, if_neg h, fixedTwo]
    · exact digitChar_isDigit _ (Nat.mod_lt _ (by omega))
    · exact digitChar_isDigit _ (Nat.mod_lt _ (by omega))
    · intro c hc
      rw [toList_append] at hc
      rcases List.mem_append.mp hc with h1 | h1
      · by_cases hm : round (q * 100) < 0
        · rw [if_pos hm] at h1
          have : c = '-' := by simpa using h1
          subst this
          decide
        · rw [if_neg hm] at h1
          simp at h1
      · exact isDigit_ne_dot c (natDigitsStr_all_digits _ c h1)
  · intro str q h
    simp only [display, h]
  · intro str h
    simp only [display, h]

/-- A non-integral rational with reduced denominator 2 (the model value
of one half). -/
def qHalf : ℚ := ⟨1, 2, by omega, Nat.coprime_one_left 2⟩

/-- Witness for C9 at `Number 3`, `Number qHalf`, `String "7"` and
`String "abc"`. -/
theorem claim_C9_witness :
    ((3 : ℚ).den = 1 ∧
      display (.Number 3) = intToStr (3 : ℚ).num ∧ ∀ c ∈ (display (.Number 3)).toList, c ≠ '.')
  ∧ (qHalf.den ≠ 1 ∧
      ∃ (s₁ : String) (c₁ c₂ : Char),
        display (.Number qHalf) = s₁ ++ "." ++ String.mk [c₁, c₂] ∧
        c₁.isDigit = true ∧ c₂.isDigit = true ∧ ∀ c ∈ s₁.toList, c ≠ '.')
  ∧ (parseF64 "7" = some 7 ∧ display (.String "7") = display (.Number 7))
  ∧ (parseF64 "abc" = none ∧ display (.String "abc") = "abc") := by
  refine ⟨⟨rfl, ?_⟩, ⟨by decide, ?_⟩, ⟨rfl, ?_⟩, ⟨rfl, ?_⟩⟩
  · exact claim_C9.1 3 rfl
  · exact claim_C9.2.1 qHalf (by decide)
  · exact claim_C9.2.2.1 "7" 7 rfl
  · exact claim_C9.2.2.2 "abc" rfl
